import Mathlib

/-!
Shallow embedding of the access-control and reorder core of the
Cloudflare-Navihive repository (worker entry `fetch` middleware and
`NavigationAPI` in src/api/http.ts).

JavaScript strings are modelled as `List Char` (all characters involved lie
in the BMP, where a UTF-16 code unit coincides with the code point).
`btoa` is modelled faithfully including its `InvalidCharacterError` on
characters above U+00FF (result `none`); `atob` implements the WHATWG
"forgiving base64" decode.  `JSON.parse` is modelled by an executable JSON
parser over `List Char` with numbers represented exactly as rationals.
-/

namespace Navihive

set_option maxRecDepth 100000

/-- Abbreviation for a JavaScript string: its list of UTF-16 code units,
here represented as `Char`s (all relevant characters are in the BMP). -/
abbrev JSStr := List Char

/-- Convert a Lean string literal to the `JSStr` model. -/
def jstr (s : String) : JSStr := s.data

/-- JavaScript `String.prototype.split(sep)` for a single-character
separator and no limit: empty fields are kept, and splitting the empty
string yields `[""]`. -/
def jsSplit (sep : Char) : JSStr → List JSStr
  | [] => [[]]
  | c :: rest =>
    match jsSplit sep rest with
    | [] => if c = sep then [[], [c]] else [[c]]
    | s :: ss => if c = sep then [] :: s :: ss else (c :: s) :: ss

/-- The standard base64 alphabet, indexed 0–63. -/
def base64Alphabet : List Char :=
  jstr "ABCDEFGHIJKLMNOPQRSTUVWXYZabcdefghijklmnopqrstuvwxyz0123456789+/"

/-- The character for a 6-bit group. -/
def b64Char (n : Nat) : Char := base64Alphabet.getD n 'A'

/-- Index of a character in the base64 alphabet (`none` when not in it). -/
def b64Index (c : Char) : Option Nat :=
  if c ∈ base64Alphabet then some (base64Alphabet.indexOf c) else none

/-- Encode a list of bytes to base64 with `=` padding, 3 bytes → 4 chars. -/
def base64EncodeBytes : List Nat → List Char
  | [] => []
  | [b1] =>
    [b64Char (b1 / 4), b64Char (b1 % 4 * 16), '=', '=']
  | [b1, b2] =>
    [b64Char (b1 / 4), b64Char (b1 % 4 * 16 + b2 / 16), b64Char (b2 % 16 * 4), '=']
  | b1 :: b2 :: b3 :: rest =>
    b64Char (b1 / 4) :: b64Char (b1 % 4 * 16 + b2 / 16) ::
    b64Char (b2 % 16 * 4 + b3 / 64) :: b64Char (b3 % 64) ::
    base64EncodeBytes rest

/-- JavaScript `btoa`: fails (throws `InvalidCharacterError`, modelled as
`none`) when any character of the argument is above U+00FF; otherwise
base64-encodes the Latin-1 code units. -/
def btoa (s : JSStr) : Option JSStr :=
  if s.all (fun c => c.toNat ≤ 255) then
    some (base64EncodeBytes (s.map Char.toNat))
  else
    none

/-- ASCII whitespace removed by forgiving base64 decoding. -/
def isB64Whitespace (c : Char) : Bool :=
  c == ' ' || c == '\t' || c == '\n' || c == '\x0c' || c == '\r'

/-- Decode a whitespace- and padding-free base64 body into bytes; `none` on
a character outside the alphabet or a leftover single character. -/
def b64DecodeBody : List Char → Option (List Nat)
  | [] => some []
  | [_] => none
  | [c1, c2] => do
    let n1 ← b64Index c1
    let n2 ← b64Index c2
    pure [n1 * 4 + n2 / 16]
  | [c1, c2, c3] => do
    let n1 ← b64Index c1
    let n2 ← b64Index c2
    let n3 ← b64Index c3
    pure [n1 * 4 + n2 / 16, n2 % 16 * 16 + n3 / 4]
  | c1 :: c2 :: c3 :: c4 :: rest => do
    let n1 ← b64Index c1
    let n2 ← b64Index c2
    let n3 ← b64Index c3
    let n4 ← b64Index c4
    let tl ← b64DecodeBody rest
    pure ((n1 * 4 + n2 / 16) :: (n2 % 16 * 16 + n3 / 4) :: (n3 % 4 * 64 + n4) :: tl)

/-- JavaScript `atob` (WHATWG forgiving base64): strips ASCII whitespace,
allows `=` padding only at the end up to a multiple of four, rejects a
remainder of one character, and decodes; `none` models the thrown
`InvalidCharacterError`. -/
def atob (s : JSStr) : Option JSStr := do
  let t := s.filter (fun c => !(isB64Whitespace c))
  let t := if t.length % 4 = 0 then
      match t.reverse with
      | '=' :: '=' :: r => r.reverse
      | '=' :: r => r.reverse
      | _ => t
    else t
  if t.length % 4 = 1 then none
  else do
    let bytes ← b64DecodeBody t
    pure (bytes.map Char.ofNat)

/-! Section: JSON values, `JSON.parse` and `JSON.stringify` -/

/-- JSON values as produced by `JSON.parse`; numbers are kept exactly as
rationals (every JSON numeric literal denotes a rational), where the
engine rounds to the nearest float64 — the two agree on integer values of
magnitude below 2 to the 53rd power, the regime in which the expiry
statements are made. -/
inductive Json where
  | null
  | bool (b : Bool)
  | num (q : Rat)
  | str (s : JSStr)
  | arr (elems : List Json)
  | obj (mems : List (JSStr × Json))

/-- Whether a JSON value is `null`. -/
def Json.isNull : Json → Bool
  | .null => true
  | _ => false

/-- Whether a JSON value is a number (`typeof v === "number"`). -/
def Json.isNum : Json → Bool
  | .num _ => true
  | _ => false

/-- JSON insignificant whitespace. -/
def isJsonWs (c : Char) : Bool :=
  c == ' ' || c == '\t' || c == '\n' || c == '\r'

/-- Drop leading JSON whitespace. -/
def skipWs (s : JSStr) : JSStr := s.dropWhile isJsonWs

/-- Decimal digit test. -/
def isDigitCh (c : Char) : Bool := '0' ≤ c && c ≤ '9'

/-- Value of a decimal digit character. -/
def digitVal (c : Char) : Nat := c.toNat - 48

/-- Value of a hexadecimal digit character, `none` if not one. -/
def hexVal (c : Char) : Option Nat :=
  if '0' ≤ c ∧ c ≤ '9' then some (c.toNat - 48)
  else if 'a' ≤ c ∧ c ≤ 'f' then some (c.toNat - 87)
  else if 'A' ≤ c ∧ c ≤ 'F' then some (c.toNat - 55)
  else none

/-- Numeric value of a digit string. -/
def digitsToNat (ds : List Char) : Nat := ds.foldl (fun n c => n * 10 + digitVal c) 0

/-- Parse the body of a JSON string after the opening quote; returns the
decoded characters and the rest after the closing quote.  Escape sequences
follow the JSON grammar; an unescaped control character or an unterminated
string fails.  (`\uXXXX` denoting a lone surrogate is mapped by
`Char.ofNat` to NUL, a granularity irrelevant to the claims.) -/
def parseStringBody : JSStr → Option (JSStr × JSStr)
  | [] => none
  | '"' :: rest => some ([], rest)
  | '\\' :: esc =>
    match esc with
    | 'u' :: h1 :: h2 :: h3 :: h4 :: rest => do
      let v1 ← hexVal h1
      let v2 ← hexVal h2
      let v3 ← hexVal h3
      let v4 ← hexVal h4
      let (tl, r) ← parseStringBody rest
      pure (Char.ofNat (v1 * 4096 + v2 * 256 + v3 * 16 + v4) :: tl, r)
    | e :: rest => do
      let c ← match e with
        | '"' => some '"'
        | '\\' => some '\\'
        | '/' => some '/'
        | 'b' => some '\x08'
        | 'f' => some '\x0c'
        | 'n' => some '\n'
        | 'r' => some '\r'
        | 't' => some '\t'
        | _ => none
      let (tl, r) ← parseStringBody rest
      pure (c :: tl, r)
    | [] => none
  | c :: rest =>
    if c.toNat < 32 then none
    else do
      let (tl, r) ← parseStringBody rest
      pure (c :: tl, r)

/-- Parse a JSON numeric literal (sign, integer part without leading
zeros, optional fraction, optional exponent) into its exact rational
value; returns the value and the unconsumed rest. -/
def parseNumber (s : JSStr) : Option (Json × JSStr) :=
  let (neg, s1) := match s with
    | '-' :: r => (true, r)
    | _ => (false, s)
  match s1.span isDigitCh with
  | ([], _) => none
  | (ds, rest) =>
    if ds.length > 1 ∧ ds.headD 'x' = '0' then none
    else
      let (fds, rest2) := match rest with
        | '.' :: r2 =>
          match r2.span isDigitCh with
          | ([], _) => ([], rest)
          | (fs, r3) => (fs, r3)
        | _ => ([], rest)
      if rest ≠ rest2 ∧ fds = [] then none
      else
        match rest with
        | '.' :: r2 =>
          if (r2.span isDigitCh).1 = [] then none
          else finish neg ds fds rest2
        | _ => finish neg ds fds rest2
where
  /-- Assemble mantissa/fraction and optional exponent into a `Json.num`. -/
  finish (neg : Bool) (ds fds : List Char) (rest : JSStr) : Option (Json × JSStr) :=
    let (expOk, e, rest3) := match rest with
      | 'e' :: r | 'E' :: r =>
        let (esign, r1) := match r with
          | '+' :: r2 => ((1 : Int), r2)
          | '-' :: r2 => ((-1 : Int), r2)
          | _ => ((1 : Int), r)
        match r1.span isDigitCh with
        | ([], _) => (false, (0 : Int), rest)
        | (eds, r2) => (true, esign * (digitsToNat eds : Int), r2)
      | _ => (true, (0 : Int), rest)
    if expOk then
      let m : Nat := digitsToNat (ds ++ fds)
      let mag : Rat := mkRat (Int.ofNat (m * 10 ^ e.toNat)) (10 ^ ((-e).toNat + fds.length))
      some (.num (if neg then -mag else mag), rest3)
    else none

mutual

/-- Parse one JSON value (fuel-indexed to make recursion structural). -/
def parseValue : Nat → JSStr → Option (Json × JSStr)
  | 0, _ => none
  | fuel + 1, s =>
    match s with
    | '\x7b' :: rest =>
      (match skipWs rest with
       | '\x7d' :: r2 => some (.obj [], r2)
       | r2 => (parseMembers fuel r2).map fun p => (.obj p.1, p.2))
    | '[' :: rest =>
      (match skipWs rest with
       | ']' :: r2 => some (.arr [], r2)
       | r2 => (parseElems fuel r2).map fun p => (.arr p.1, p.2))
    | '"' :: rest => (parseStringBody rest).map fun p => (.str p.1, p.2)
    | 't' :: 'r' :: 'u' :: 'e' :: rest => some (.bool true, rest)
    | 'f' :: 'a' :: 'l' :: 's' :: 'e' :: rest => some (.bool false, rest)
    | 'n' :: 'u' :: 'l' :: 'l' :: rest => some (.null, rest)
    | _ => parseNumber s

/-- Parse the members of a JSON object, positioned at the opening quote of a key. -/
def parseMembers : Nat → JSStr → Option (List (JSStr × Json) × JSStr)
  | 0, _ => none
  | fuel + 1, s =>
    match s with
    | '"' :: rest => do
      let (key, r1) ← parseStringBody rest
      match skipWs r1 with
      | ':' :: r2 => do
        let (v, r3) ← parseValue fuel (skipWs r2)
        match skipWs r3 with
        | ',' :: r4 => do
          let (ms, r5) ← parseMembers fuel (skipWs r4)
          pure ((key, v) :: ms, r5)
        | '\x7d' :: r4 => pure ([(key, v)], r4)
        | _ => none
      | _ => none
    | _ => none

/-- Parse the elements of a JSON array, positioned at a value. -/
def parseElems : Nat → JSStr → Option (List Json × JSStr)
  | 0, _ => none
  | fuel + 1, s => do
    let (v, r1) ← parseValue fuel s
    match skipWs r1 with
    | ',' :: r2 => do
      let (es, r3) ← parseElems fuel (skipWs r2)
      pure (v :: es, r3)
    | ']' :: r2 => pure ([v], r2)
    | _ => none

end

/-- JavaScript `JSON.parse` over the model: parses one value surrounded by
optional whitespace; anything else (`none`) models the thrown
`SyntaxError`.  The fuel `s.length + 2` is ample: every recursive descent
consumes at least one character. -/
def jsonParse (s : JSStr) : Option Json :=
  match parseValue (s.length + 2) (skipWs s) with
  | some (v, rest) => if skipWs rest = [] then some v else none
  | none => none

/-- Hexadecimal digit character (lowercase), for `\u00XX` escapes. -/
def hexDigit (n : Nat) : Char :=
  (jstr "0123456789abcdef").getD n '0'

/-- Escaping of one string character, as `JSON.stringify` performs it. -/
def jsonEscapeChar (c : Char) : JSStr :=
  if c = '"' then ['\\', '"']
  else if c = '\\' then ['\\', '\\']
  else if c = '\x08' then ['\\', 'b']
  else if c = '\x0c' then ['\\', 'f']
  else if c = '\n' then ['\\', 'n']
  else if c = '\r' then ['\\', 'r']
  else if c = '\t' then ['\\', 't']
  else if c.toNat < 32 then ['\\', 'u', '0', '0', hexDigit (c.toNat / 16), hexDigit (c.toNat % 16)]
  else [c]

/-- Serialization of a string value, as `JSON.stringify` performs it. -/
def jsonQuote (s : JSStr) : JSStr :=
  '"' :: (s.map jsonEscapeChar).flatten ++ ['"']

/-- Character of a decimal digit. -/
def digitChar (m : Nat) : Char := Char.ofNat (48 + m)

/-- Fuel-indexed digit expansion (most significant first). -/
def natToDigitsFuel : Nat → Nat → JSStr
  | 0, _ => []
  | fuel + 1, n => if n < 10 then [digitChar n] else natToDigitsFuel fuel (n / 10) ++ [digitChar (n % 10)]

/-- Decimal digits of a natural number, as `JSON.stringify` prints
integral numbers. -/
def natToDigits (n : Nat) : JSStr := natToDigitsFuel (n + 1) n

/-! Section: The Token Service (`NavigationAPI` in src/api/http.ts) -/

/-- The fixed token header JSON of `generateToken`, exactly as
`JSON.stringify` prints it. -/
def headerJsonStr : JSStr := jstr "\x7b\"alg\":\"HS256\",\"typ\":\"JWT\"\x7d"

/-- Serialization of the token payload built by `generateToken`:
`{ ...payload, exp, iat }` with `payload = { username }`, so the member
order is `username`, `exp`, `iat`. -/
def stringifyTokenPayload (username : JSStr) (exp iat : Nat) : JSStr :=
  jstr "\x7b\"username\":" ++ jsonQuote username ++
  jstr ",\"exp\":" ++ natToDigits exp ++
  jstr ",\"iat\":" ++ natToDigits iat ++ jstr "\x7d"

/-- The `.replace(/\+/g, "-").replace(/\//g, "_")` step of `generateToken`. -/
def b64ToUrlChars (s : JSStr) : JSStr :=
  s.map fun c => if c = '+' then '-' else if c = '/' then '_' else c

/-- The `.replace(/=+$/, "")` step of `generateToken`: strip the trailing
run of `=`. -/
def stripTrailingEq (s : JSStr) : JSStr :=
  (s.reverse.dropWhile (fun c => c == '=')).reverse

/-- The inverse direction used by `verifyToken`:
replacing every dash by a plus and every underscore by a slash. -/
def urlToB64Chars (s : JSStr) : JSStr :=
  s.map fun c => if c = '-' then '+' else if c = '_' then '/' else c

/-- The default shared secret used when `AUTH_SECRET` is unset
(`"默认密钥，建议在生产环境中设置"`); all of its characters are above
U+00FF. -/
def defaultSecret : JSStr := jstr "默认密钥，建议在生产环境中设置"

/-- Model of `NavigationAPI.generateToken`: builds the payload
`{ ...payload, exp: now + 24*60*60, iat: now }`, base64url-encodes
(without padding) the header JSON and payload JSON via `btoa` and the two
`replace` chains, computes the signature as
`btoa(secret + encodedHeader + encodedPayload)` likewise, and joins the
three segments with dots.  `none` models the `InvalidCharacterError`
thrown by `btoa` on any character above U+00FF.  The two `Date.now()`
reads are modelled by the single second value `nowSec`. -/
def generateToken (secret username : JSStr) (nowSec : Nat) : Option JSStr := do
  let payloadJson := stringifyTokenPayload username (nowSec + 24 * 60 * 60) nowSec
  let encodedHeader := stripTrailingEq (b64ToUrlChars (← btoa headerJsonStr))
  let encodedPayload := stripTrailingEq (b64ToUrlChars (← btoa payloadJson))
  let signature := stripTrailingEq (b64ToUrlChars (← btoa (secret ++ encodedHeader ++ encodedPayload)))
  pure (encodedHeader ++ '.' :: encodedPayload ++ '.' :: signature)

/-- Result of `NavigationAPI.login`; `raise` models an exception escaping
`login` (the catch-all of the worker then answers 500). -/
inductive LoginOutcome where
  | resp (success : Bool) (token : Option JSStr) (message : JSStr)
  | raise

/-- Model of `NavigationAPI.login`: when auth is disabled, issue a guest token and
report success; otherwise compare username and password by exact string
equality against the configured values. -/
def login (enabled : Bool) (cfgUser cfgPass secret : JSStr)
    (reqUser reqPass : JSStr) (nowSec : Nat) : LoginOutcome :=
  if !enabled then
    match generateToken secret (jstr "guest") nowSec with
    | some t => .resp true (some t) (jstr "身份验证未启用，默认登录成功")
    | none => .raise
  else if reqUser = cfgUser ∧ reqPass = cfgPass then
    match generateToken secret reqUser nowSec with
    | some t => .resp true (some t) (jstr "登录成功")
    | none => .raise
  else
    .resp false none (jstr "用户名或密码错误")

/-- Truthiness of a JSON value under JavaScript boolean coercion
(`JSON.parse` cannot produce `NaN`, `undefined`, or a document). -/
def truthy : Json → Bool
  | .null => false
  | .bool b => b
  | .num q => decide (q ≠ 0)
  | .str s => decide (s ≠ [])
  | .arr _ => true
  | .obj _ => true

/-- JavaScript property lookup `v[k]` on a parsed JSON value:
on an object the last binding of the key wins (as `JSON.parse` keeps the
last duplicate member); on any non-object, `none` (undefined). -/
def jsGet (v : Json) (k : JSStr) : Option Json :=
  match v with
  | .obj ms => ms.foldl (fun acc m => if m.1 = k then some m.2 else acc) none
  | _ => none

/-- The value domain of JavaScript `ToNumber`: a rational (exact model of
a finite float64, see the note on `jsonParse`), one of the infinities, or
NaN. -/
inductive JsNum where
  | nan
  | posInf
  | negInf
  | val (q : Rat)

/-- The whitespace trimmed by `Number(string)`: WhiteSpace and
LineTerminator code points. -/
def jsStrWs (c : Char) : Bool :=
  [' ', '\t', '\n', '\r', '\x0b', '\x0c', '\u00A0', '\uFEFF', '\u1680',
    '\u2000', '\u2001', '\u2002', '\u2003', '\u2004', '\u2005', '\u2006',
    '\u2007', '\u2008', '\u2009', '\u200A', '\u2028', '\u2029', '\u202F',
    '\u205F', '\u3000'].contains c

/-- Exact rational value of a decimal with integer-and-fraction digits
`m`, `fracLen` fraction digits, and decimal exponent `e`. -/
def decNumToRat (m : Nat) (fracLen : Nat) (e : Int) : Rat :=
  mkRat (Int.ofNat (m * 10 ^ e.toNat)) (10 ^ ((-e).toNat + fracLen))

/-- Parse an unsigned decimal of the `Number(string)` grammar
(`digits [. digits] [exponent]`, `. digits [exponent]`, leading zeros
allowed); the whole string must be consumed. -/
def parseDecForNumber (s : JSStr) : Option Rat :=
  let (ds, r1) := s.span isDigitCh
  let (fds, r2) := match r1 with
    | '.' :: r => r.span isDigitCh
    | _ => ([], r1)
  if ds = [] ∧ fds = [] then none
  else
    match r2 with
    | [] => some (decNumToRat (digitsToNat (ds ++ fds)) fds.length 0)
    | 'e' :: r | 'E' :: r =>
      let (esign, r3) := match r with
        | '+' :: rr => ((1 : Int), rr)
        | '-' :: rr => ((-1 : Int), rr)
        | _ => ((1 : Int), r)
      match r3.span isDigitCh with
      | ([], _) => none
      | (eds, r4) =>
        if r4 = [] then
          some (decNumToRat (digitsToNat (ds ++ fds)) fds.length
            (esign * (digitsToNat eds : Int)))
        else none
    | _ => none

/-- Parse an unsigned non-decimal integer (`0x`, `0o`, `0b` bodies). -/
def radixToNum (s : JSStr) (radix : Nat) : JsNum :=
  if s = [] then .nan
  else if s.all (fun c => (hexVal c).isSome && decide ((hexVal c).getD 0 < radix)) then
    .val (mkRat (Int.ofNat (s.foldl (fun n c => n * radix + (hexVal c).getD 0) 0)) 1)
  else .nan

/-- The signed-decimal / Infinity part of the `Number(string)` grammar. -/
def strUnsignedToNum (s : JSStr) (neg : Bool) : JsNum :=
  if s = jstr "Infinity" then (if neg then .negInf else .posInf)
  else
    match parseDecForNumber s with
    | some q => .val (if neg then -q else q)
    | none => .nan

/-- JavaScript `Number(string)`: trim whitespace, empty gives 0, then a
signed decimal or `Infinity`, or an unsigned `0x`/`0o`/`0b` literal;
anything else is NaN.  Values are kept exact where the engine rounds to
float64 (same granularity note as `jsonParse`). -/
def jsStrToNumber (s₀ : JSStr) : JsNum :=
  let s := ((s₀.dropWhile jsStrWs).reverse.dropWhile jsStrWs).reverse
  if s = [] then .val 0
  else
    match s with
    | '+' :: r => strUnsignedToNum r false
    | '-' :: r => strUnsignedToNum r true
    | '0' :: c :: r =>
      if c = 'x' ∨ c = 'X' then radixToNum r 16
      else if c = 'o' ∨ c = 'O' then radixToNum r 8
      else if c = 'b' ∨ c = 'B' then radixToNum r 2
      else strUnsignedToNum s false
    | _ => strUnsignedToNum s false

/-- JavaScript `ToNumber` on a JSON value, as used by the `<` comparison
in `verifyToken`.  Strings convert by the `Number(string)` grammar; the
empty array coerces through its empty joined string to 0 and an object
through `"[object Object]"` to NaN, both exact.  The one approximation:
a NON-EMPTY array (which coerces through the joined string of its
elements) is modelled as NaN; no theorem depends on that branch. -/
def jsToNumber : Json → JsNum
  | .num q => .val q
  | .bool b => .val (if b then 1 else 0)
  | .null => .val 0
  | .str s => jsStrToNumber s
  | .arr [] => .val 0
  | .arr (_ :: _) => .nan
  | .obj _ => .nan

/-- The comparison `v < now` of `verifyToken`, under `ToNumber` coercion:
NaN and positive infinity compare false, negative infinity compares
true. -/
def jsLtNum (v : Json) (now : Int) : Bool :=
  match jsToNumber v with
  | .nan => false
  | .posInf => false
  | .negInf => true
  | .val q => decide (q < (now : Rat))

/-- Result of `NavigationAPI.verifyToken`. -/
inductive VerifyResult where
  | ok (payload : Option Json)
  | bad

/-- The `valid` field of the result object. -/
def VerifyResult.valid : VerifyResult → Bool
  | .ok _ => true
  | .bad => false

/-- Model of `NavigationAPI.verifyToken`: with auth disabled, immediately valid.
Otherwise split on `.` and destructure the FIRST THREE segments (extra
segments are ignored), require each to be truthy (non-empty), base64url-
decode and `JSON.parse` ONLY the payload segment, and reject when the
`exp` member is truthy and `exp < now`.  Every thrown error (bad format,
`atob` failure, `JSON.parse` failure, property access on `null`, expiry)
is caught and reported as `{ valid: false }`.   The signature segment is
never decoded or compared. -/
def verifyToken (authEnabled : Bool) (nowSec : Int) (token : JSStr) : VerifyResult :=
  if !authEnabled then .ok none
  else
    let parts := jsSplit '.' token
    let header := parts.getD 0 []
    let payload := parts.getD 1 []
    let signature := parts.getD 2 []
    if header = [] ∨ payload = [] ∨ signature = [] then .bad
    else
      match atob (urlToB64Chars payload) with
      | none => .bad
      | some decodedStr =>
        match jsonParse decodedStr with
        | none => .bad
        | some .null => .bad
        | some v =>
          match jsGet v (jstr "exp") with
          | none => .ok (some v)
          | some e => if truthy e && jsLtNum e nowSec then .bad else .ok (some v)

/-! Section: The Auth Gate (worker `fetch` middleware) -/

/-- Decision of the middleware block guarding every route other than
`POST login` and `GET init`. -/
inductive GateOutcome where
  | allow
  | denyChallenge
  | denyMalformed
  | denyInvalid

/-- The auth middleware of the worker `fetch` handler: skipped entirely
when auth is disabled; a missing (or falsy empty) `Authorization` header
gives 401 with `WWW-Authenticate: Bearer` (`denyChallenge`); a scheme
other than `Bearer` or a missing/empty token gives a generic 401
(`denyMalformed`); a token rejected by `verifyToken` gives the
re-authenticate 401 (`denyInvalid`); otherwise the request proceeds. -/
def authGate (authEnabled : Bool) (nowSec : Int) (authHeader : Option JSStr) : GateOutcome :=
  if !authEnabled then .allow
  else
    match authHeader with
    | none => .denyChallenge
    | some h =>
      if h = [] then .denyChallenge
      else
        let parts := jsSplit ' ' h
        let authType := parts.getD 0 []
        let token := parts.getD 1 []
        if ¬ authType = jstr "Bearer" ∨ token = [] then .denyMalformed
        else if (verifyToken authEnabled nowSec token).valid then .allow
        else .denyInvalid

/-! Section: Order Sync (`updateGroupOrder` / `updateSiteOrder`) and its storage
model -/

/-- One reorder request item, per the source type
`{ id: number; order_num: number }` (integral in every produced call). -/
structure OrderItem where
  id : Int
  order_num : Int

/-- One stored row of the ordered scope, projected to the columns Order
Sync touches. -/
structure OrderRow where
  id : Int
  order_num : Int
  updated_at : Nat

/-- The prepared statements Order Sync builds:
`UPDATE groups/sites SET order_num = ?, updated_at = CURRENT_TIMESTAMP
WHERE id = ?`, with their bound values. -/
inductive D1Stmt where
  | updateGroupOrderNum (order_num id : Int)
  | updateSiteOrderNum (order_num id : Int)

/-- Executing one UPDATE against its table: every row matching the id
gets the new `order_num` and timestamp; a statement matching no row is a
successful no-op (SQL row-count zero is not an error). -/
def execStmt (ts : Nat) (stmt : D1Stmt) (db : List OrderRow) : List OrderRow :=
  match stmt with
  | .updateGroupOrderNum o i => db.map fun r => if r.id = i then ⟨r.id, o, ts⟩ else r
  | .updateSiteOrderNum o i => db.map fun r => if r.id = i then ⟨r.id, o, ts⟩ else r

/-- The D1 `batch` primitive: the statements run in a single implicit transaction;
`ok` is the storage oracle — on success all statements are applied in
order and the promise resolves, on failure the transaction rolls back and
the promise rejects, leaving the table untouched. -/
def d1Batch (ts : Nat) (stmts : List D1Stmt) (db : List OrderRow) (ok : Bool) :
    List OrderRow × Bool :=
  if ok then (stmts.foldl (fun d s => execStmt ts s d) db, true) else (db, false)

/-- Model of `NavigationAPI.updateGroupOrder`: maps each item to one UPDATE
statement, submits them as one `batch`, and resolves to `true` on success
and `false` on any batch failure (`.then(() => true).catch(() => false)`). -/
def updateGroupOrder (groupOrders : List OrderItem) (db : List OrderRow)
    (ts : Nat) (ok : Bool) : List OrderRow × Bool :=
  d1Batch ts (groupOrders.map fun item => D1Stmt.updateGroupOrderNum item.order_num item.id)
    db ok

/-- Model of `NavigationAPI.updateSiteOrder`: identical to `updateGroupOrder` but
against the sites table. -/
def updateSiteOrder (siteOrders : List OrderItem) (db : List OrderRow)
    (ts : Nat) (ok : Bool) : List OrderRow × Bool :=
  d1Batch ts (siteOrders.map fun item => D1Stmt.updateSiteOrderNum item.order_num item.id)
    db ok

/-- The row a stored row becomes after a successful batch: each item in
order overwrites the order number when its id matches. -/
def rowAfter (ts : Nat) (items : List OrderItem) (r : OrderRow) : OrderRow :=
  items.foldl (fun row it => if row.id = it.id then ⟨row.id, it.order_num, ts⟩ else row) r

/-! Section: The PUT group-orders / site-orders route handlers -/

/-- Outcome of the validation loop of the reorder route handlers:
a 400 response, a call into Order Sync with the validated items, or an
uncaught exception (`raise`, answered 500 by the catch-all) from reading
a property of a `null` element. -/
inductive OrdersOutcome where
  | badRequest (message : JSStr)
  | callSync (items : List (Rat × Rat))
  | raise

/-- The per-item validation of the reorder handlers:
`!item.id || typeof item.id !== "number" || item.order_num === undefined
|| typeof item.order_num !== "number"`. -/
def orderItemBad (item : Json) : Bool :=
  (match jsGet item (jstr "id") with
   | none => true
   | some v => !(truthy v) || !(v.isNum))
  ||
  (match jsGet item (jstr "order_num") with
   | none => true
   | some v => !(v.isNum))

/-- The numeric value the handler forwards for a field (always a number
for items that passed validation). -/
def itemField (item : Json) (k : JSStr) : Rat :=
  match jsGet item k with
  | some (.num q) => q
  | _ => 0

/-- The `for (const item of data)` loop of the handlers: the first `null`
element raises a `TypeError` (500); the first invalid element returns the
400 response; if all pass, Order Sync is invoked with every item. -/
def ordersLoop (orig : List Json) : List Json → OrdersOutcome
  | [] => .callSync (orig.map fun it => (itemField it (jstr "id"), itemField it (jstr "order_num")))
  | item :: rest =>
    if item.isNull then .raise
    else if orderItemBad item then
      .badRequest (jstr "排序数据格式无效，每个项目必须包含id和order_num")
    else ordersLoop orig rest

/-- The shared body of the `PUT group-orders` and `PUT site-orders`
handlers (their validation code is character-identical): reject a
non-array body, then run the per-item loop. -/
def ordersHandler (body : Json) : OrdersOutcome :=
  match body with
  | .arr items => ordersLoop items items
  | _ => .badRequest (jstr "排序数据必须是数组")

/-- Whether a JSON value is an array (`Array.isArray`). -/
def Json.isArr : Json → Bool
  | .arr _ => true
  | _ => false

/-! Section: derived forms and concrete tokens used by the analysis -/

/-- The verification performed by `verifyToken` (auth enabled) on the
first three fields produced by the dot-split, written as a function of
those fields. -/
def verifySegments (nowSec : Int) (header payload signature : JSStr) : VerifyResult :=
  if header = [] ∨ payload = [] ∨ signature = [] then .bad
  else
    match atob (urlToB64Chars payload) with
    | none => .bad
    | some decodedStr =>
      match jsonParse decodedStr with
      | none => .bad
      | some .null => .bad
      | some v =>
        match jsGet v (jstr "exp") with
        | none => .ok (some v)
        | some e => if truthy e && jsLtNum e nowSec then .bad else .ok (some v)

/-- Base64url without `=` padding, as the amended transport-format claim
words it (the encoding step shared by all three segments). -/
def specB64url (s : JSStr) : Option JSStr :=
  (btoa s).map fun t => stripTrailingEq (b64ToUrlChars t)

/-- The amended transport format, stated from the specification wording
with the field names the code actually serializes: the token is
`headerB64 "." claimsB64 "." tagB64` where `headerB64` encodes the header
JSON, `claimsB64` encodes the claims JSON with members `username` (the
identity), `exp` (`iat` plus 86400 seconds) and `iat` (the issue time),
and `tagB64` encodes `secret ++ headerB64 ++ claimsB64`. -/
def specTokenFormat (secret identity : JSStr) (nowSec : Nat) : Option JSStr := do
  let headerB64 ← specB64url headerJsonStr
  let claimsB64 ← specB64url (stringifyTokenPayload identity (nowSec + 86400) nowSec)
  let tagB64 ← specB64url (secret ++ headerB64 ++ claimsB64)
  pure (headerB64 ++ '.' :: claimsB64 ++ '.' :: tagB64)

/-- Header segment of the token issued with secret `"s"`, identity
`"guest"`, at time 0 (the base64url of the fixed header JSON). -/
def tokHeaderSeg : JSStr := jstr "eyJhbGciOiJIUzI1NiIsInR5cCI6IkpXVCJ9"

/-- Claims segment of that token (base64url of
`\x7b"username":"guest","exp":86400,"iat":0\x7d`). -/
def tokClaimsSeg : JSStr := jstr "eyJ1c2VybmFtZSI6Imd1ZXN0IiwiZXhwIjo4NjQwMCwiaWF0IjowfQ"

/-- Tag segment of that token (base64url of the secret concatenated with
the two encoded segments). -/
def tokTagSeg : JSStr :=
  jstr "c2V5SmhiR2NpT2lKSVV6STFOaUlzSW5SNWNDSTZJa3BYVkNKOWV5SjFjMlZ5Ym1GdFpTSTZJbWQxWlhOMElpd2laWGh3SWpvNE5qUXdNQ3dpYVdGMElqb3dmUQ"

/-- The claims segment with the single character at index 3 flipped from
`'1'` to `'B'`; it still base64url-decodes, to the JSON
`\x7b"Asername":"guest","exp":86400,"iat":0\x7d`. -/
def tokTamperedClaims : JSStr := tokClaimsSeg.set 3 'B'

/-- The decoded claims of the token issued with secret `"s"`, identity
`"guest"`, at time 0. -/
def tokClaimsDecoded : JSStr := jstr "\x7b\"username\":\"guest\",\"exp\":86400,\"iat\":0\x7d"

/-- The parsed form of those claims: members `username`, `exp`, `iat`. -/
def tokClaimsJson : Json :=
  Json.obj [(jstr "username", Json.str (jstr "guest")),
    (jstr "exp", Json.num (mkRat 86400 1)), (jstr "iat", Json.num (mkRat 0 1))]

/-- A reorder item with id 1 and order 0 (used twice to exhibit duplicate
ids passing validation). -/
def dupOrderItem : Json := Json.obj [(jstr "id", Json.num 1), (jstr "order_num", Json.num 0)]

/-- A reorder item whose id is the integer 0 (falsy in JavaScript). -/
def zeroIdOrderItem : Json := Json.obj [(jstr "id", Json.num 0), (jstr "order_num", Json.num 1)]

/-- A reorder item with the non-integer order number 1.5. -/
def fracOrderItem : Json :=
  Json.obj [(jstr "id", Json.num 1), (jstr "order_num", Json.num (mkRat 3 2))]

/-! Section: supporting lemmas -/

/-- The function `jsSplit` never returns an empty list of fields. -/
theorem jsSplit_ne_nil (sep : Char) (s : JSStr) : jsSplit sep s ≠ [] := by
  cases s with
  | nil => simp [jsSplit]
  | cons c rest =>
    simp only [jsSplit]
    rcases h : jsSplit sep rest with _ | ⟨s, ss⟩ <;> simp only [h] <;>
      split <;> simp

/-- Splitting a string that contains no separator yields the string itself
as the single field. -/
theorem jsSplit_no_sep (sep : Char) (s : JSStr) (h : sep ∉ s) :
    jsSplit sep s = [s] := by
  induction s with
  | nil => rfl
  | cons c rest ih =>
    simp only [List.mem_cons, not_or] at h
    simp only [jsSplit, ih h.2]
    have : ¬ c = sep := fun hc => h.1 hc.symm
    simp [this]

/-- Splitting distributes over an explicit separator occurrence when the
prefix contains no separator. -/
theorem jsSplit_append_sep (sep : Char) (a b : JSStr) (h : sep ∉ a) :
    jsSplit sep (a ++ sep :: b) = a :: jsSplit sep b := by
  induction a with
  | nil =>
    simp only [List.nil_append, jsSplit]
    cases hb : jsSplit sep b with
    | nil => exact absurd hb (jsSplit_ne_nil sep b)
    | cons s ss => simp
  | cons c rest ih =>
    simp only [List.mem_cons, not_or] at h
    have hcs : ¬ c = sep := fun hc => h.1 hc.symm
    simp only [List.cons_append, jsSplit]
    simp only [hcs, if_false, List.append_eq]
    rw [ih h.2]


/-- Splitting a three-segment dot-joined string with dot-free segments. -/
theorem jsSplit_three (h c s : JSStr) (hh : '.' ∉ h) (hc : '.' ∉ c) :
    jsSplit '.' (h ++ '.' :: c ++ '.' :: s) = h :: c :: jsSplit '.' s := by
  rw [show (h ++ '.' :: c ++ '.' :: s : JSStr) = h ++ '.' :: (c ++ '.' :: s) by simp,
    jsSplit_append_sep _ _ _ hh, jsSplit_append_sep _ _ _ hc]

/-- With auth enabled, a token whose dot-split starts with three given
fields is verified exactly on those three fields; all later fields are
discarded by the destructuring. -/
theorem verifyToken_eq_segments (nowSec : Int) (token h c s : JSStr) (rest : List JSStr)
    (hsplit : jsSplit '.' token = h :: c :: s :: rest) :
    verifyToken true nowSec token = verifySegments nowSec h c s := by
  simp only [verifyToken, hsplit, Bool.not_true, verifySegments]
  rfl

/-- The result of `verifySegments` does not depend on the contents of a
non-empty signature field. -/
theorem verifySegments_tag_irrel (nowSec : Int) (h c s₁ s₂ : JSStr)
    (h₁ : s₁ ≠ []) (h₂ : s₂ ≠ []) :
    verifySegments nowSec h c s₁ = verifySegments nowSec h c s₂ := by
  unfold verifySegments
  simp [h₁, h₂]

/-! Section: claim C1 -/

/-- C1 (amended): `verifyToken` performs no tag recomputation or
comparison at all — for any two non-empty, dot-free signature segments the
verification result of `header.claims.sig1` and `header.claims.sig2` is
identical.  (The original claim, that `Valid` requires the tag to equal
the recomputed digest and that any single-character flip in the claims
segment forces `Invalid`, is refuted by `C1_counterexample`.) -/
theorem C1_verify_ignores_tag (nowSec : Int) (h c s₁ s₂ : JSStr)
    (hh : '.' ∉ h) (hc : '.' ∉ c) (hs₁ : '.' ∉ s₁) (hs₂ : '.' ∉ s₂)
    (hn₁ : s₁ ≠ []) (hn₂ : s₂ ≠ []) :
    verifyToken true nowSec (h ++ '.' :: c ++ '.' :: s₁) =
      verifyToken true nowSec (h ++ '.' :: c ++ '.' :: s₂) := by
  rw [verifyToken_eq_segments nowSec _ h c s₁ []
      (by rw [jsSplit_three h c s₁ hh hc, jsSplit_no_sep _ _ hs₁]),
    verifyToken_eq_segments nowSec _ h c s₂ []
      (by rw [jsSplit_three h c s₂ hh hc, jsSplit_no_sep _ _ hs₂])]
  exact verifySegments_tag_irrel nowSec h c s₁ s₂ hn₁ hn₂

/-- Witness for C1: two concrete tokens differing only in the tag segment
verify identically. -/
theorem C1_verify_ignores_tag_witness :
    verifyToken true 0 (jstr "a" ++ '.' :: jstr "b" ++ '.' :: jstr "x") =
      verifyToken true 0 (jstr "a" ++ '.' :: jstr "b" ++ '.' :: jstr "y") :=
  C1_verify_ignores_tag 0 (jstr "a") (jstr "b") (jstr "x") (jstr "y")
    (by decide) (by decide) (by decide) (by decide) (by decide) (by decide)

/-- Counterexample to C1 as stated: the token issued for identity "guest"
with secret "s" at time 0 verifies as valid; flipping the single claims
character at index 3 (exactly one position differs) still verifies as
valid, although the tag segment no longer matches a recomputation of the
digest over the tampered claims. -/
theorem C1_counterexample :
    generateToken (jstr "s") (jstr "guest") 0 =
      some (tokHeaderSeg ++ '.' :: tokClaimsSeg ++ '.' :: tokTagSeg)
    ∧ (verifyToken true 0 (tokHeaderSeg ++ '.' :: tokClaimsSeg ++ '.' :: tokTagSeg)).valid = true
    ∧ tokTamperedClaims.length = tokClaimsSeg.length
    ∧ (List.zipWith (fun a b => decide (a ≠ b)) tokTamperedClaims tokClaimsSeg).count true = 1
    ∧ (verifyToken true 0 (tokHeaderSeg ++ '.' :: tokTamperedClaims ++ '.' :: tokTagSeg)).valid
        = true
    ∧ specB64url (jstr "s" ++ tokHeaderSeg ++ tokTamperedClaims) ≠ some tokTagSeg :=
  ⟨by decide, by decide, by decide, by decide, by decide, by decide⟩

/-! Section: claim C4 -/

/-- C4: the auth middleware gate.  With auth disabled every request is
allowed regardless of the header; with auth enabled, a missing header is
denied 401 with the `WWW-Authenticate: Bearer` challenge, a non-`Bearer`
scheme or missing/empty token part is denied with the generic 401, and a
request whose token part fails (resp. passes) `verifyToken` is denied
with the re-authenticate 401 (resp. proceeds to the route handler). -/
theorem C4_authGate (nowSec : Int) (hdr : Option JSStr) (h : JSStr) :
    authGate false nowSec hdr = .allow
    ∧ authGate true nowSec none = .denyChallenge
    ∧ (h ≠ [] →
        ((jsSplit ' ' h).getD 0 [] ≠ jstr "Bearer" ∨ (jsSplit ' ' h).getD 1 [] = []) →
        authGate true nowSec (some h) = .denyMalformed)
    ∧ (h ≠ [] → (jsSplit ' ' h).getD 0 [] = jstr "Bearer" →
        (jsSplit ' ' h).getD 1 [] ≠ [] →
        ((verifyToken true nowSec ((jsSplit ' ' h).getD 1 [])).valid = false →
          authGate true nowSec (some h) = .denyInvalid)
        ∧ ((verifyToken true nowSec ((jsSplit ' ' h).getD 1 [])).valid = true →
          authGate true nowSec (some h) = .allow)) := by
  refine ⟨rfl, rfl, ?_, ?_⟩
  · intro hne hbad
    rcases hbad with hb | hb <;>
      simp only [List.getD_eq_getElem?_getD] at hb <;>
      simp [authGate, hne, hb]
  · intro hne hA hT
    simp only [List.getD_eq_getElem?_getD] at hA hT
    constructor <;> intro hv <;>
      simp only [List.getD_eq_getElem?_getD] at hv <;>
      simp [authGate, hne, hA, hT, hv]

/-- Witness for C4 at concrete requests: the shapes of the spec's gate
denial table, plus an accepted request carrying the issued token. -/
theorem C4_authGate_witness :
    authGate false 0 none = .allow
    ∧ authGate true 0 none = .denyChallenge
    ∧ authGate true 0 (some (jstr "Token abc")) = .denyMalformed
    ∧ authGate true 0 (some (jstr "Bearer")) = .denyMalformed
    ∧ authGate true 0 (some (jstr "Bearer x.y")) = .denyInvalid
    ∧ authGate true 0
        (some (jstr "Bearer " ++ tokHeaderSeg ++ '.' :: tokClaimsSeg ++ '.' :: tokTagSeg)) =
        .allow :=
  ⟨(C4_authGate 0 none []).1,
   (C4_authGate 0 none []).2.1,
   (C4_authGate 0 none (jstr "Token abc")).2.2.1 (by decide) (Or.inl (by decide)),
   (C4_authGate 0 none (jstr "Bearer")).2.2.1 (by decide) (Or.inr (by decide)),
   ((C4_authGate 0 none (jstr "Bearer x.y")).2.2.2 (by decide) (by decide) (by decide)).1
     (by decide),
   ((C4_authGate 0 none
       (jstr "Bearer " ++ tokHeaderSeg ++ '.' :: tokClaimsSeg ++ '.' :: tokTagSeg)).2.2.2
     (by decide) (by decide) (by decide)).2 (by decide)⟩

/-! Section: claim C5 -/

/-- C5 (amended): with auth enabled, for a well-shaped token whose
claims segment decodes and parses to a non-null value: a token with no
`exp` member at all is never rejected for expiry, and for a numeric `exp`
member that is integer-valued with magnitude below 2^53 (the regime in
which the float64 arithmetic of the program coincides with the exact
model — epoch-second claims as issued are such), verification succeeds if
and only if `exp` is zero or not less than the current time.  In
particular a token with `exp` equal to now, or with `exp = 0` however far
in the past, is accepted; only a nonzero `exp` strictly below now is
rejected.  Non-numeric `exp` values are coerced by ToNumber before the
comparison and are not characterized here.  (The original claim, that
`Valid` requires `exp` strictly greater than now and that every past
`exp` is rejected, is refuted by `C5_counterexample`.) -/
theorem C5_expiry (nowSec : Int) (h c s ds : JSStr) (v : Json)
    (hh : '.' ∉ h) (hc : '.' ∉ c) (hs : '.' ∉ s)
    (hne : h ≠ []) (hcne : c ≠ []) (hsne : s ≠ [])
    (hdec : atob (urlToB64Chars c) = some ds)
    (hparse : jsonParse ds = some v) (hnull : v.isNull = false) :
    (jsGet v (jstr "exp") = none →
      (verifyToken true nowSec (h ++ '.' :: c ++ '.' :: s)).valid = true)
    ∧ (∀ q : Rat, jsGet v (jstr "exp") = some (.num q) →
      q.den = 1 → q.num.natAbs < 2 ^ 53 → nowSec.natAbs < 2 ^ 53 →
      ((verifyToken true nowSec (h ++ '.' :: c ++ '.' :: s)).valid = true ↔
        (q = 0 ∨ ¬ q < (nowSec : Rat)))) := by
  rw [verifyToken_eq_segments nowSec _ h c s []
      (by rw [jsSplit_three h c s hh hc, jsSplit_no_sep _ _ hs])]
  unfold verifySegments
  simp only [hne, hcne, hsne, false_or, or_self, if_false, hdec, hparse]
  cases v with
  | null => simp [Json.isNull] at hnull
  | bool b =>
    exact ⟨fun _ => rfl, fun q hexp => by simp [jsGet] at hexp⟩
  | num qq =>
    exact ⟨fun _ => rfl, fun q hexp => by simp [jsGet] at hexp⟩
  | str ss =>
    exact ⟨fun _ => rfl, fun q hexp => by simp [jsGet] at hexp⟩
  | arr es =>
    exact ⟨fun _ => rfl, fun q hexp => by simp [jsGet] at hexp⟩
  | obj ms =>
    constructor
    · intro hnone
      simp only [hnone]
      rfl
    · intro q hexp hden hqb hnb
      simp only [hexp]
      by_cases h1 : q = 0
      · simp [truthy, jsLtNum, jsToNumber, h1, VerifyResult.valid]
      · by_cases h2 : q < (nowSec : Rat)
        · simp [truthy, jsLtNum, jsToNumber, h1, h2, VerifyResult.valid]
        · simp [truthy, jsLtNum, jsToNumber, h1, h2, VerifyResult.valid]

/-- Witness for C5: a token whose claims carry no `exp` member is
accepted at time 100, and for the concrete token with claims
`\x7b"exp":100\x7d` verification at time 100 matches the boundary
characterization. -/
theorem C5_expiry_witness :
    (verifyToken true 100 (jstr "x" ++ '.' :: jstr "eyJhIjoxfQ" ++ '.' :: jstr "y")).valid
        = true
    ∧ ((verifyToken true 100 (jstr "x" ++ '.' :: jstr "eyJleHAiOjEwMH0" ++ '.' :: jstr "y")).valid
        = true ↔
      (mkRat 100 1 = 0 ∨ ¬ mkRat 100 1 < ((100 : Int) : Rat))) :=
  ⟨(C5_expiry 100 (jstr "x") (jstr "eyJhIjoxfQ") (jstr "y")
      (jstr "\x7b\"a\":1\x7d") (Json.obj [(jstr "a", Json.num (mkRat 1 1))])
      (by decide) (by decide) (by decide) (by decide) (by decide) (by decide)
      (by decide) rfl rfl).1 rfl,
   (C5_expiry 100 (jstr "x") (jstr "eyJleHAiOjEwMH0") (jstr "y")
      (jstr "\x7b\"exp\":100\x7d") (Json.obj [(jstr "exp", Json.num (mkRat 100 1))])
      (by decide) (by decide) (by decide) (by decide) (by decide) (by decide)
      (by decide) rfl rfl).2 (mkRat 100 1) rfl rfl (by decide) (by decide)⟩

/-- Counterexample to C5 as stated: a token with `exp = 100` is accepted
at time 100 (`exp` is not strictly greater than now), and a token with
`exp = 0` is accepted at time 50 (`exp` lies in the past yet `verify`
returns valid). -/
theorem C5_counterexample :
    (verifyToken true 100 (jstr "x" ++ '.' :: jstr "eyJleHAiOjEwMH0" ++ '.' :: jstr "y")).valid
        = true
    ∧ atob (urlToB64Chars (jstr "eyJleHAiOjEwMH0")) = some (jstr "\x7b\"exp\":100\x7d")
    ∧ jsonParse (jstr "\x7b\"exp\":100\x7d") =
        some (Json.obj [(jstr "exp", Json.num (mkRat 100 1))])
    ∧ (verifyToken true 50 (jstr "x" ++ '.' :: jstr "eyJleHAiOjB9" ++ '.' :: jstr "y")).valid
        = true
    ∧ atob (urlToB64Chars (jstr "eyJleHAiOjB9")) = some (jstr "\x7b\"exp\":0\x7d")
    ∧ jsonParse (jstr "\x7b\"exp\":0\x7d") =
        some (Json.obj [(jstr "exp", Json.num (mkRat 0 1))]) :=
  ⟨by decide, by decide, rfl, by decide, by decide, rfl⟩

/-! Section: claim C6 -/

/-- C6 (amended): the structural checks of `verifyToken` diverge from
the claim in both directions.  Proved here: split fields beyond the third
are discarded (a four-segment token verifies exactly like its first three
fields); the header and tag segments are never base64-decoded (any
non-empty dot-free header verifies identically); a claims segment that
fails base64url decoding or JSON parsing is rejected; and so is a claims
segment that decodes and parses to JSON `null`, whose property access
throws.  (The original claim, that a segment count other than three or an
undecodable header segment forces `Invalid`, is refuted by
`C6_counterexample`.) -/
theorem C6_parsing (nowSec : Int) (h h₂ c s r : JSStr)
    (hh : '.' ∉ h) (hh₂ : '.' ∉ h₂) (hc : '.' ∉ c) (hs : '.' ∉ s) :
    (verifyToken true nowSec (h ++ '.' :: c ++ '.' :: s ++ '.' :: r) =
      verifyToken true nowSec (h ++ '.' :: c ++ '.' :: s))
    ∧ (h ≠ [] → h₂ ≠ [] →
      verifyToken true nowSec (h ++ '.' :: c ++ '.' :: s) =
        verifyToken true nowSec (h₂ ++ '.' :: c ++ '.' :: s))
    ∧ ((atob (urlToB64Chars c)).bind jsonParse = none →
      verifyToken true nowSec (h ++ '.' :: c ++ '.' :: s) = .bad)
    ∧ ((atob (urlToB64Chars c)).bind jsonParse = some Json.null →
      verifyToken true nowSec (h ++ '.' :: c ++ '.' :: s) = .bad) := by
  refine ⟨?_, ?_, ?_, ?_⟩
  · rw [verifyToken_eq_segments nowSec _ h c s (jsSplit '.' r)
        (by
          rw [show (h ++ '.' :: c ++ '.' :: s ++ '.' :: r : JSStr) =
              h ++ '.' :: (c ++ '.' :: (s ++ '.' :: r)) by simp,
            jsSplit_append_sep _ _ _ hh, jsSplit_append_sep _ _ _ hc,
            jsSplit_append_sep _ _ _ hs]),
      verifyToken_eq_segments nowSec _ h c s []
        (by rw [jsSplit_three h c s hh hc, jsSplit_no_sep _ _ hs])]
  · intro hn hn₂
    rw [verifyToken_eq_segments nowSec _ h c s []
        (by rw [jsSplit_three h c s hh hc, jsSplit_no_sep _ _ hs]),
      verifyToken_eq_segments nowSec _ h₂ c s []
        (by rw [jsSplit_three h₂ c s hh₂ hc, jsSplit_no_sep _ _ hs])]
    simp only [verifySegments]
    simp [hn, hn₂]
  · intro hb
    rw [verifyToken_eq_segments nowSec _ h c s []
        (by rw [jsSplit_three h c s hh hc, jsSplit_no_sep _ _ hs])]
    unfold verifySegments
    cases hA : atob (urlToB64Chars c) with
    | none => split <;> simp [hA]
    | some ds =>
      rw [hA] at hb
      have hb₂ : jsonParse ds = none := hb
      split
      · rfl
      · simp [hA, hb₂]
  · intro hb
    rw [verifyToken_eq_segments nowSec _ h c s []
        (by rw [jsSplit_three h c s hh hc, jsSplit_no_sep _ _ hs])]
    unfold verifySegments
    cases hA : atob (urlToB64Chars c) with
    | none =>
      rw [hA] at hb
      exact absurd hb (by simp)
    | some ds =>
      rw [hA] at hb
      have hb₂ : jsonParse ds = some Json.null := hb
      split
      · rfl
      · simp [hA, hb₂]

/-- Witness for C6: a four-segment token verifies like its first three
segments, a claims segment that fails decoding is rejected, and a claims
segment decoding to the JSON text `null` is rejected as well. -/
theorem C6_parsing_witness :
    (verifyToken true 0 (jstr "a" ++ '.' :: jstr "b" ++ '.' :: jstr "c" ++ '.' :: jstr "d") =
      verifyToken true 0 (jstr "a" ++ '.' :: jstr "b" ++ '.' :: jstr "c"))
    ∧ verifyToken true 0 (jstr "!" ++ '.' :: jstr "!!!" ++ '.' :: jstr "y") = .bad
    ∧ verifyToken true 0 (jstr "a" ++ '.' :: jstr "bnVsbA" ++ '.' :: jstr "c") = .bad :=
  ⟨(C6_parsing 0 (jstr "a") (jstr "a") (jstr "b") (jstr "c") (jstr "d")
      (by decide) (by decide) (by decide) (by decide)).1,
   (C6_parsing 0 (jstr "!") (jstr "!") (jstr "!!!") (jstr "y") []
      (by decide) (by decide) (by decide) (by decide)).2.2.1 rfl,
   (C6_parsing 0 (jstr "a") (jstr "a") (jstr "bnVsbA") (jstr "c") []
      (by decide) (by decide) (by decide) (by decide)).2.2.2 rfl⟩

/-- Counterexample to C6 as stated: appending a fourth segment to the
issued token leaves it accepted although the split now has four fields,
and replacing the header segment by `!!!` (which fails base64 decoding)
also leaves the token accepted. -/
theorem C6_counterexample :
    (jsSplit '.'
        (tokHeaderSeg ++ '.' :: tokClaimsSeg ++ '.' :: tokTagSeg ++ '.' :: jstr "zzz")).length
      = 4
    ∧ (verifyToken true 0
        (tokHeaderSeg ++ '.' :: tokClaimsSeg ++ '.' :: tokTagSeg ++ '.' :: jstr "zzz")).valid
      = true
    ∧ atob (urlToB64Chars (jstr "!!!")) = none
    ∧ (verifyToken true 0 (jstr "!!!" ++ '.' :: tokClaimsSeg ++ '.' :: tokTagSeg)).valid
      = true :=
  ⟨by decide, by decide, by decide, by decide⟩

/-! Section: Latin-1 character bookkeeping for the `btoa` calls -/

/-- A default-valued lookup in a list of small characters stays small. -/
theorem getD_le255 (l : List Char) (d : Char) (hl : ∀ c ∈ l, c.toNat ≤ 255)
    (hd : d.toNat ≤ 255) (n : Nat) : (l.getD n d).toNat ≤ 255 := by
  rw [List.getD_eq_getElem?_getD]
  cases h : l[n]? with
  | none => simpa using hd
  | some c =>
    have : c ∈ l := by
      apply List.get?_mem
      simpa [List.get?_eq_getElem?] using h
    simpa using hl c this

/-- Every base64 alphabet character is Latin-1. -/
theorem b64Char_le255 (n : Nat) : (b64Char n).toNat ≤ 255 :=
  getD_le255 base64Alphabet 'A' (by decide) (by decide) n

/-- Every hexadecimal digit character is Latin-1. -/
theorem hexDigit_le255 (n : Nat) : (hexDigit n).toNat ≤ 255 :=
  getD_le255 (jstr "0123456789abcdef") '0' (by decide) (by decide) n

/-- The base64 encoder emits only alphabet characters and `=`, all
Latin-1. -/
theorem base64EncodeBytes_le255 :
    ∀ (bs : List Nat) (c : Char), c ∈ base64EncodeBytes bs → c.toNat ≤ 255
  | [], c, h => by simp [base64EncodeBytes] at h
  | [b1], c, h => by
    simp only [base64EncodeBytes, List.mem_cons, List.not_mem_nil, or_false] at h
    rcases h with rfl | rfl | rfl | rfl
    · exact b64Char_le255 _
    · exact b64Char_le255 _
    · decide
    · decide
  | [b1, b2], c, h => by
    simp only [base64EncodeBytes, List.mem_cons, List.not_mem_nil, or_false] at h
    rcases h with rfl | rfl | rfl | rfl
    · exact b64Char_le255 _
    · exact b64Char_le255 _
    · exact b64Char_le255 _
    · decide
  | b1 :: b2 :: b3 :: rest, c, h => by
    simp only [base64EncodeBytes, List.mem_cons] at h
    rcases h with rfl | rfl | rfl | rfl | h
    · exact b64Char_le255 _
    · exact b64Char_le255 _
    · exact b64Char_le255 _
    · exact b64Char_le255 _
    · exact base64EncodeBytes_le255 rest c h

/-- The url-safe substitution keeps characters Latin-1. -/
theorem b64ToUrlChars_le255 (s : JSStr) (hs : ∀ c ∈ s, c.toNat ≤ 255) :
    ∀ c ∈ b64ToUrlChars s, c.toNat ≤ 255 := by
  intro c hc
  rw [b64ToUrlChars, List.mem_map] at hc
  obtain ⟨a, ha, rfl⟩ := hc
  have := hs a ha
  split <;> try decide
  split <;> first | decide | exact this

/-- Stripping trailing `=` keeps membership. -/
theorem mem_of_mem_stripTrailingEq (s : JSStr) (c : Char)
    (h : c ∈ stripTrailingEq s) : c ∈ s := by
  rw [stripTrailingEq, List.mem_reverse] at h
  exact List.mem_reverse.mp ((List.dropWhile_sublist _).mem h)

/-- Characters of a decimal digit expansion are Latin-1. -/
theorem natToDigitsFuel_le255 :
    ∀ (fuel n : Nat) (c : Char), c ∈ natToDigitsFuel fuel n → c.toNat ≤ 255
  | 0, n, c, h => by simp [natToDigitsFuel] at h
  | fuel + 1, n, c, h => by
    have hdig : ∀ m : Nat, m < 10 → (digitChar m).toNat ≤ 255 := by decide
    simp only [natToDigitsFuel] at h
    split at h
    · rw [List.mem_singleton] at h
      subst h
      exact hdig n (by omega)
    · rw [List.mem_append, List.mem_singleton] at h
      rcases h with h | rfl
      · exact natToDigitsFuel_le255 fuel (n / 10) c h
      · exact hdig (n % 10) (Nat.mod_lt n (by omega))

/-- Characters of `natToDigits` are Latin-1. -/
theorem natToDigits_le255 (n : Nat) (c : Char) (h : c ∈ natToDigits n) :
    c.toNat ≤ 255 := natToDigitsFuel_le255 (n + 1) n c h

/-- JSON string escaping maps a Latin-1 character to Latin-1 output. -/
theorem jsonEscapeChar_le255 (c c₂ : Char) (hc : c.toNat ≤ 255)
    (h : c₂ ∈ jsonEscapeChar c) : c₂.toNat ≤ 255 := by
  unfold jsonEscapeChar at h
  split_ifs at h <;>
    simp only [List.mem_cons, List.mem_singleton, List.not_mem_nil, or_false] at h
  · rcases h with rfl | rfl <;> decide
  · rcases h with rfl | rfl <;> decide
  · rcases h with rfl | rfl <;> decide
  · rcases h with rfl | rfl <;> decide
  · rcases h with rfl | rfl <;> decide
  · rcases h with rfl | rfl <;> decide
  · rcases h with rfl | rfl <;> decide
  · rcases h with rfl | rfl | rfl | rfl | rfl | rfl
    · decide
    · decide
    · decide
    · decide
    · exact hexDigit_le255 _
    · exact hexDigit_le255 _
  · subst h
    exact hc

/-- JSON string quoting maps a Latin-1 string to Latin-1 output. -/
theorem jsonQuote_le255 (s : JSStr) (hs : ∀ c ∈ s, c.toNat ≤ 255) :
    ∀ c ∈ jsonQuote s, c.toNat ≤ 255 := by
  intro c hc
  rw [jsonQuote] at hc
  rcases List.mem_append.mp hc with hc | hc
  · rcases List.mem_cons.mp hc with rfl | hc
    · decide
    · obtain ⟨l, hl, hcl⟩ := List.mem_flatten.mp hc
      obtain ⟨a, ha, rfl⟩ := List.mem_map.mp hl
      exact jsonEscapeChar_le255 a c (hs a ha) hcl
  · rw [List.mem_singleton] at hc
    subst hc
    decide

/-- The serialized token payload is Latin-1 whenever the username is. -/
theorem stringifyTokenPayload_le255 (u : JSStr) (e i : Nat)
    (hu : ∀ c ∈ u, c.toNat ≤ 255) :
    ∀ c ∈ stringifyTokenPayload u e i, c.toNat ≤ 255 := by
  intro c hc
  rw [stringifyTokenPayload] at hc
  rcases List.mem_append.mp hc with hc | hc
  swap
  · exact (by decide : ∀ x ∈ jstr "\x7d", x.toNat ≤ 255) c hc
  rcases List.mem_append.mp hc with hc | hc
  swap
  · exact natToDigits_le255 _ c hc
  rcases List.mem_append.mp hc with hc | hc
  swap
  · exact (by decide : ∀ x ∈ jstr ",\"iat\":", x.toNat ≤ 255) c hc
  rcases List.mem_append.mp hc with hc | hc
  swap
  · exact natToDigits_le255 _ c hc
  rcases List.mem_append.mp hc with hc | hc
  swap
  · exact (by decide : ∀ x ∈ jstr ",\"exp\":", x.toNat ≤ 255) c hc
  rcases List.mem_append.mp hc with hc | hc
  · exact (by decide : ∀ x ∈ jstr "\x7b\"username\":", x.toNat ≤ 255) c hc
  · exact jsonQuote_le255 u hu c hc

/-- Unfolding of `generateToken` into its chain of `btoa` calls. -/
theorem generateToken_def (secret u : JSStr) (nowSec : Nat) :
    generateToken secret u nowSec =
      (btoa headerJsonStr).bind fun a =>
      (btoa (stringifyTokenPayload u (nowSec + 24 * 60 * 60) nowSec)).bind fun b =>
      (btoa (secret ++ stripTrailingEq (b64ToUrlChars a) ++
        stripTrailingEq (b64ToUrlChars b))).bind fun cc =>
      some (stripTrailingEq (b64ToUrlChars a) ++ '.' ::
        stripTrailingEq (b64ToUrlChars b) ++ '.' ::
        stripTrailingEq (b64ToUrlChars cc)) := rfl

/-- Successful `btoa` on a pointwise Latin-1 string. -/
theorem btoa_eq_some (s : JSStr) (h : ∀ ch ∈ s, ch.toNat ≤ 255) :
    btoa s = some (base64EncodeBytes (s.map Char.toNat)) := by
  have hall : s.all (fun c => c.toNat ≤ 255) = true := by
    rw [List.all_eq_true]
    intro x hx
    simpa using h x hx
  simp [btoa, hall]

/-- Every character of a base64url-encoded (stripped) segment is
Latin-1. -/
theorem encSeg_le255 (bs : List Nat) :
    ∀ c ∈ stripTrailingEq (b64ToUrlChars (base64EncodeBytes bs)), c.toNat ≤ 255 := by
  intro c hc
  exact b64ToUrlChars_le255 _ (fun a ha => base64EncodeBytes_le255 bs a ha) c
    (mem_of_mem_stripTrailingEq _ c hc)

/-- Token generation succeeds on Latin-1 secret and username, with a
non-empty token. -/
theorem generateToken_some (secret u : JSStr) (nowSec : Nat)
    (hs : ∀ ch ∈ secret, ch.toNat ≤ 255) (hu : ∀ ch ∈ u, ch.toNat ≤ 255) :
    ∃ t, generateToken secret u nowSec = some t ∧ t ≠ [] := by
  have h1 : btoa headerJsonStr =
      some (base64EncodeBytes (headerJsonStr.map Char.toNat)) :=
    btoa_eq_some _ (by decide)
  have h2 : btoa (stringifyTokenPayload u (nowSec + 24 * 60 * 60) nowSec) =
      some (base64EncodeBytes
        ((stringifyTokenPayload u (nowSec + 24 * 60 * 60) nowSec).map Char.toNat)) :=
    btoa_eq_some _ (stringifyTokenPayload_le255 u _ _ hu)
  set encH := stripTrailingEq (b64ToUrlChars
    (base64EncodeBytes (headerJsonStr.map Char.toNat))) with hencH
  set encP := stripTrailingEq (b64ToUrlChars
    (base64EncodeBytes
      ((stringifyTokenPayload u (nowSec + 24 * 60 * 60) nowSec).map Char.toNat))) with hencP
  have h3 : btoa (secret ++ encH ++ encP) =
      some (base64EncodeBytes ((secret ++ encH ++ encP).map Char.toNat)) := by
    apply btoa_eq_some
    intro ch hch
    rcases List.mem_append.mp hch with hch | hch
    · rcases List.mem_append.mp hch with hch | hch
      · exact hs ch hch
      · exact encSeg_le255 _ ch hch
    · exact encSeg_le255 _ ch hch
  refine ⟨encH ++ '.' ::
      encP ++ '.' ::
      stripTrailingEq (b64ToUrlChars
        (base64EncodeBytes ((secret ++ encH ++ encP).map Char.toNat))), ?_, ?_⟩
  · rw [generateToken_def, h1, Option.some_bind, h2, Option.some_bind, h3,
      Option.some_bind]
  · simp [List.append_eq_nil]

/-! Section: claim C10 -/

/-- C10 (amended): token generation succeeds exactly up to `btoa`.  When
every character of the secret and of the identity is Latin-1 (at most
U+00FF), `generateToken` returns a token; when the secret contains any
character above U+00FF — as the default secret does — the `btoa` call on
`secret + header + payload` throws and `generateToken` produces no token,
so issuance is NOT infallible as the original claim states (refuted
concretely by `C10_counterexample`). -/
theorem C10_generateToken_total (secret u : JSStr) (nowSec : Nat) :
    ((∀ ch ∈ secret, ch.toNat ≤ 255) → (∀ ch ∈ u, ch.toNat ≤ 255) →
      ∃ t, generateToken secret u nowSec = some t)
    ∧ (¬ (∀ ch ∈ secret, ch.toNat ≤ 255) → generateToken secret u nowSec = none) := by
  constructor
  · intro hs hu
    obtain ⟨t, ht, _⟩ := generateToken_some secret u nowSec hs hu
    exact ⟨t, ht⟩
  · intro hbad
    have hnone : ∀ pre post : JSStr, btoa (pre ++ secret ++ post) = none := by
      intro pre post
      unfold btoa
      rw [if_neg]
      intro hall
      rw [List.all_eq_true] at hall
      refine hbad fun ch hch => ?_
      have := hall ch (by
        rw [List.mem_append, List.mem_append]
        exact Or.inl (Or.inr hch))
      simpa using this
    have h1 : btoa headerJsonStr =
        some (base64EncodeBytes (headerJsonStr.map Char.toNat)) :=
      btoa_eq_some _ (by decide)
    rw [generateToken_def, h1, Option.some_bind]
    cases h2 : btoa (stringifyTokenPayload u (nowSec + 24 * 60 * 60) nowSec) with
    | none => rw [Option.none_bind]
    | some p =>
      rw [Option.some_bind]
      have h4 := hnone []
        (stripTrailingEq (b64ToUrlChars (base64EncodeBytes
          (headerJsonStr.map Char.toNat))) ++ stripTrailingEq (b64ToUrlChars p))
      rw [List.nil_append] at h4
      rw [show (secret ++ stripTrailingEq (b64ToUrlChars (base64EncodeBytes
          (headerJsonStr.map Char.toNat))) ++ stripTrailingEq (b64ToUrlChars p) : JSStr) =
        secret ++ (stripTrailingEq (b64ToUrlChars (base64EncodeBytes
          (headerJsonStr.map Char.toNat))) ++ stripTrailingEq (b64ToUrlChars p)) by simp,
        h4, Option.none_bind]

/-- Witness for C10: generation succeeds for secret `"s"` and identity
`"guest"`. -/
theorem C10_generateToken_total_witness :
    ∃ t, generateToken (jstr "s") (jstr "guest") 0 = some t :=
  (C10_generateToken_total (jstr "s") (jstr "guest") 0).1 (by decide) (by decide)

/-- Counterexample to C10 as stated: with the default secret (used
whenever `AUTH_SECRET` is unset), token generation reaches the error
branch — `btoa` throws on the first character, which is above U+00FF —
for every identity, so `issue` does not always succeed. -/
theorem C10_counterexample :
    generateToken defaultSecret (jstr "guest") 0 = none
    ∧ 255 < (defaultSecret.headD ' ').toNat :=
  ⟨rfl, by decide⟩

/-! Section: claim C7 -/

/-- C7 (amended): provided the configured secret and the supplied
username are Latin-1 (the `btoa` constraint refuted in C10 otherwise
aborts login; see `C7_counterexample`), login with auth disabled always
returns success with a fresh non-empty guest token; with auth enabled it
returns success with a fresh token exactly when username and password are
character-for-character equal to the configured values, and on any
mismatch returns failure, no token, and the one fixed message that does
not depend on which of the two was wrong. -/
theorem C7_login (cfgU cfgP secret reqU reqP : JSStr) (nowSec : Nat)
    (hs : ∀ ch ∈ secret, ch.toNat ≤ 255) (hru : ∀ ch ∈ reqU, ch.toNat ≤ 255) :
    (∃ t, generateToken secret (jstr "guest") nowSec = some t ∧ t ≠ [] ∧
      login false cfgU cfgP secret reqU reqP nowSec =
        .resp true (some t) (jstr "身份验证未启用，默认登录成功"))
    ∧ (reqU = cfgU ∧ reqP = cfgP →
      ∃ t, generateToken secret reqU nowSec = some t ∧ t ≠ [] ∧
        login true cfgU cfgP secret reqU reqP nowSec =
          .resp true (some t) (jstr "登录成功"))
    ∧ (¬ (reqU = cfgU ∧ reqP = cfgP) →
      login true cfgU cfgP secret reqU reqP nowSec =
        .resp false none (jstr "用户名或密码错误")) := by
  refine ⟨?_, ?_, ?_⟩
  · obtain ⟨t, ht, htne⟩ := generateToken_some secret (jstr "guest") nowSec hs (by decide)
    exact ⟨t, ht, htne, by simp [login, ht]⟩
  · intro hmatch
    obtain ⟨t, ht, htne⟩ := generateToken_some secret reqU nowSec hs hru
    have ht₂ : generateToken secret cfgU nowSec = some t := hmatch.1 ▸ ht
    exact ⟨t, ht, htne, by simp [login, hmatch.1, hmatch.2, ht₂]⟩
  · intro hno
    simp [login, hno]

/-- Witness for C7: auth disabled with empty credentials and secret `"s"`
yields success with a non-empty token (the concrete scenario of the
specification). -/
theorem C7_login_witness :
    ∃ t, generateToken (jstr "s") (jstr "guest") 0 = some t ∧ t ≠ [] ∧
      login false (jstr "admin") (jstr "pw") (jstr "s") [] [] 0 =
        .resp true (some t) (jstr "身份验证未启用，默认登录成功") :=
  (C7_login (jstr "admin") (jstr "pw") (jstr "s") [] [] 0 (by decide) (by decide)).1

/-- Counterexample to C7 as stated: with auth disabled and the default
(non-Latin-1) secret, login does not return success — the guest-token
`btoa` call throws and the exception escapes `login` (the worker answers
500). -/
theorem C7_counterexample :
    login false [] [] defaultSecret [] [] 0 = .raise
    ∧ generateToken defaultSecret (jstr "guest") 0 = none
    ∧ (defaultSecret.all fun ch => ch.toNat ≤ 255) = false :=
  ⟨rfl, rfl, by decide⟩

/-! Section: claim C9 -/

/-- C9 (amended): the issued credential has exactly the spec transport
shape — three dot-joined, unpadded base64url segments over the fixed
header JSON, the claims JSON, and the digest input
`secret ++ header_b64 ++ claims_b64` — with the claims serialized under
the field names the code uses: `username` (the identity), `exp` (equal to
`iat + 86400`) and `iat` (the issue time).  The spec field names
`subject`, `issuedAt`, `expiresAt` do not occur (see
`C9_counterexample`). -/
theorem C9_token_format (secret identity : JSStr) (nowSec : Nat) :
    generateToken secret identity nowSec = specTokenFormat secret identity nowSec := by
  rw [generateToken_def]
  unfold specTokenFormat specB64url
  simp only [show (24 * 60 * 60 : Nat) = 86400 from rfl]
  cases btoa headerJsonStr with
  | none => rfl
  | some a =>
    simp only [Option.map_some', Option.some_bind, Option.bind_eq_bind]
    cases btoa (stringifyTokenPayload identity (nowSec + 86400) nowSec) with
    | none => rfl
    | some b =>
      simp only [Option.map_some', Option.some_bind, Option.bind_eq_bind]
      cases btoa (secret ++ stripTrailingEq (b64ToUrlChars a) ++
          stripTrailingEq (b64ToUrlChars b)) with
      | none => rfl
      | some cc =>
        simp only [Option.map_some', Option.some_bind, Option.bind_eq_bind]
        rfl

/-- Counterexample to C9 as stated: the claims segment of the concretely
issued token decodes to a JSON object whose members are `username`,
`exp` and `iat`; it contains no `subject`, `issuedAt` or `expiresAt`
member, so the claimed claim-JSON shape is not the one on the wire. -/
theorem C9_counterexample :
    generateToken (jstr "s") (jstr "guest") 0 =
      some (tokHeaderSeg ++ '.' :: tokClaimsSeg ++ '.' :: tokTagSeg)
    ∧ atob (urlToB64Chars tokClaimsSeg) = some tokClaimsDecoded
    ∧ jsonParse tokClaimsDecoded = some tokClaimsJson
    ∧ jsGet tokClaimsJson (jstr "username") = some (Json.str (jstr "guest"))
    ∧ jsGet tokClaimsJson (jstr "subject") = none
    ∧ jsGet tokClaimsJson (jstr "issuedAt") = none
    ∧ jsGet tokClaimsJson (jstr "expiresAt") = none :=
  ⟨by decide, by decide, rfl, rfl, rfl, rfl, rfl⟩

/-! Section: claims C2 and C3 -/

/-- Executing the mapped group UPDATE statements of one batch equals a
pointwise rewrite of the table by `rowAfter`. -/
theorem execStmts_group_eq_map (ts : Nat) :
    ∀ (items : List OrderItem) (db : List OrderRow),
      (items.map fun it => D1Stmt.updateGroupOrderNum it.order_num it.id).foldl
        (fun d s => execStmt ts s d) db = db.map (rowAfter ts items)
  | [], db => by
    simp only [List.map_nil, List.foldl_nil]
    symm
    show List.map (fun r => r) db = db
    simp
  | i :: rest, db => by
    simp only [List.map_cons, List.foldl_cons]
    rw [execStmts_group_eq_map ts rest
      (execStmt ts (D1Stmt.updateGroupOrderNum i.order_num i.id) db)]
    simp only [execStmt, List.map_map]
    rfl

/-- Executing the mapped site UPDATE statements of one batch equals a
pointwise rewrite of the table by `rowAfter`. -/
theorem execStmts_site_eq_map (ts : Nat) :
    ∀ (items : List OrderItem) (db : List OrderRow),
      (items.map fun it => D1Stmt.updateSiteOrderNum it.order_num it.id).foldl
        (fun d s => execStmt ts s d) db = db.map (rowAfter ts items)
  | [], db => by
    simp only [List.map_nil, List.foldl_nil]
    symm
    show List.map (fun r => r) db = db
    simp
  | i :: rest, db => by
    simp only [List.map_cons, List.foldl_cons]
    rw [execStmts_site_eq_map ts rest
      (execStmt ts (D1Stmt.updateSiteOrderNum i.order_num i.id) db)]
    simp only [execStmt, List.map_map]
    rfl

/-- A batch application never changes a row id. -/
theorem rowAfter_id (ts : Nat) :
    ∀ (items : List OrderItem) (r : OrderRow), (rowAfter ts items r).id = r.id
  | [], _ => rfl
  | i :: rest, r => by
    have hstep : rowAfter ts (i :: rest) r =
        rowAfter ts rest (if r.id = i.id then ⟨r.id, i.order_num, ts⟩ else r) := rfl
    rw [hstep, rowAfter_id ts rest]
    split <;> rfl

/-- A row whose id is hit by no item is entirely unchanged. -/
theorem rowAfter_not_mem (ts : Nat) :
    ∀ (items : List OrderItem) (r : OrderRow),
      (∀ it ∈ items, it.id ≠ r.id) → rowAfter ts items r = r
  | [], _, _ => rfl
  | i :: rest, r, h => by
    have hi : i.id ≠ r.id := h i (List.mem_cons_self i rest)
    have hstep : rowAfter ts (i :: rest) r =
        rowAfter ts rest (if r.id = i.id then ⟨r.id, i.order_num, ts⟩ else r) := rfl
    rw [hstep, if_neg (fun hh => hi hh.symm)]
    exact rowAfter_not_mem ts rest r fun it hit => h it (List.mem_cons_of_mem i hit)

/-- Under unique item ids, a row hit by an item receives exactly the
order number that item supplies. -/
theorem rowAfter_mem (ts : Nat) :
    ∀ (items : List OrderItem) (r : OrderRow) (it : OrderItem),
      (items.map OrderItem.id).Nodup → it ∈ items → it.id = r.id →
      (rowAfter ts items r).order_num = it.order_num
  | [], _, it, _, hit, _ => absurd hit (List.not_mem_nil it)
  | j :: rest, r, it, hnd, hit, heq => by
    rw [List.map_cons, List.nodup_cons] at hnd
    obtain ⟨hjn, hrest⟩ := hnd
    have hstep : rowAfter ts (j :: rest) r =
        rowAfter ts rest (if r.id = j.id then ⟨r.id, j.order_num, ts⟩ else r) := rfl
    rcases List.mem_cons.mp hit with rfl | hmem
    · rw [hstep, if_pos heq.symm,
        rowAfter_not_mem ts rest ⟨r.id, it.order_num, ts⟩ ?_]
      · intro it₂ hit₂ hbad
        exact hjn (List.mem_map.mpr ⟨it₂, hit₂, by rw [hbad, ← heq]⟩)
    · by_cases hj : r.id = j.id
      · exact absurd (List.mem_map.mpr ⟨it, hmem, by rw [heq, hj]⟩) hjn
      · rw [hstep, if_neg hj]
        exact rowAfter_mem ts rest r it hrest hmem heq

/-- C2: each reorder call maps every supplied item to exactly one UPDATE
statement, submits the whole list as one transactional batch and performs
no other storage mutation: on batch failure the call returns false and
the table — in particular every listed id — is left exactly as it was; on
batch success the call returns true and the new table is exactly the
execution of those statements. -/
theorem C2_order_batch (items : List OrderItem) (db : List OrderRow) (ts : Nat) :
    updateGroupOrder items db ts false = (db, false)
    ∧ updateSiteOrder items db ts false = (db, false)
    ∧ updateGroupOrder items db ts true =
        ((items.map fun it => D1Stmt.updateGroupOrderNum it.order_num it.id).foldl
          (fun d s => execStmt ts s d) db, true)
    ∧ updateSiteOrder items db ts true =
        ((items.map fun it => D1Stmt.updateSiteOrderNum it.order_num it.id).foldl
          (fun d s => execStmt ts s d) db, true)
    ∧ (items.map fun it => D1Stmt.updateGroupOrderNum it.order_num it.id).length
        = items.length
    ∧ (items.map fun it => D1Stmt.updateSiteOrderNum it.order_num it.id).length
        = items.length :=
  ⟨rfl, rfl, rfl, rfl, by simp, by simp⟩

/-- C3: after a successful reorder batch the stored table is the
pointwise `rowAfter` rewrite: row ids are untouched, every row whose id
is carried by some request item (ids unique in the request) holds exactly
the supplied order number, rows hit by no item are entirely unchanged,
and the call reports success regardless of whether the ids exist in
storage — a nonexistent id is a silent no-op. -/
theorem C3_order_applied (items : List OrderItem) (db : List OrderRow) (ts : Nat)
    (hnodup : (items.map OrderItem.id).Nodup) :
    (updateGroupOrder items db ts true).1 = db.map (rowAfter ts items)
    ∧ (updateSiteOrder items db ts true).1 = db.map (rowAfter ts items)
    ∧ (updateGroupOrder items db ts true).2 = true
    ∧ (updateSiteOrder items db ts true).2 = true
    ∧ (∀ r : OrderRow, (rowAfter ts items r).id = r.id)
    ∧ (∀ (r : OrderRow), ∀ it ∈ items, it.id = r.id →
        (rowAfter ts items r).order_num = it.order_num)
    ∧ (∀ r : OrderRow, (∀ it ∈ items, it.id ≠ r.id) → rowAfter ts items r = r) :=
  ⟨execStmts_group_eq_map ts items db, execStmts_site_eq_map ts items db, rfl, rfl,
    fun r => rowAfter_id ts items r,
    fun r it hit heq => rowAfter_mem ts items r it hnodup hit heq,
    fun r h => rowAfter_not_mem ts items r h⟩

/-- Witness for C3: the spec scenario — ids 1, 2, 3 reordered by
`[(2, 0), (1, 1), (3, 2)]`, including the id 999 absent from storage. -/
theorem C3_order_applied_witness :
    (updateGroupOrder [⟨2, 0⟩, ⟨1, 1⟩, ⟨3, 2⟩, ⟨999, 5⟩]
        [⟨1, 0, 7⟩, ⟨2, 1, 7⟩, ⟨3, 2, 7⟩] 9 true).1 =
      [⟨1, 0, 7⟩, ⟨2, 1, 7⟩, ⟨3, 2, 7⟩].map
        (rowAfter 9 [⟨2, 0⟩, ⟨1, 1⟩, ⟨3, 2⟩, ⟨999, 5⟩])
    ∧ (updateGroupOrder [⟨2, 0⟩, ⟨1, 1⟩, ⟨3, 2⟩, ⟨999, 5⟩]
        [⟨1, 0, 7⟩, ⟨2, 1, 7⟩, ⟨3, 2, 7⟩] 9 true).2 = true :=
  ⟨(C3_order_applied _ _ 9 (by decide)).1, (C3_order_applied _ _ 9 (by decide)).2.2.1⟩

/-! Section: claim C8 -/

/-- The validation loop: a offending element produces the 400 response,
and a fully valid element list reaches Order Sync with every item. -/
theorem ordersLoop_spec :
    ∀ (orig es : List Json), (∀ e ∈ es, e.isNull = false) →
      ((∃ e ∈ es, orderItemBad e = true) → ordersLoop orig es =
        .badRequest (jstr "排序数据格式无效，每个项目必须包含id和order_num"))
      ∧ ((∀ e ∈ es, orderItemBad e = false) → ordersLoop orig es =
        .callSync (orig.map fun it =>
          (itemField it (jstr "id"), itemField it (jstr "order_num"))))
  | orig, [], _ =>
    ⟨fun ⟨e, he, _⟩ => absurd he (List.not_mem_nil e), fun _ => rfl⟩
  | orig, e :: rest, h => by
    have hen : e.isNull = false := h e (List.mem_cons_self e rest)
    have hrest : ∀ x ∈ rest, x.isNull = false :=
      fun x hx => h x (List.mem_cons_of_mem e hx)
    constructor
    · rintro ⟨x, hx, hxbad⟩
      cases hbe : orderItemBad e with
      | true => simp [ordersLoop, hen, hbe]
      | false =>
        simp only [ordersLoop, hen, hbe, Bool.false_eq_true, if_false]
        rcases List.mem_cons.mp hx with rfl | hmem
        · rw [hbe] at hxbad
          exact absurd hxbad (by simp)
        · exact (ordersLoop_spec orig rest hrest).1 ⟨x, hmem, hxbad⟩
    · intro hall
      have hbe : orderItemBad e = false := hall e (List.mem_cons_self e rest)
      simp only [ordersLoop, hen, hbe, Bool.false_eq_true, if_false]
      exact (ordersLoop_spec orig rest hrest).2
        fun x hx => hall x (List.mem_cons_of_mem e hx)

/-- C8 (amended): provided no element is JSON `null` (a `null` element
instead raises and yields 500), the reorder handlers respond 400 without
invoking Order Sync exactly when the body is not an array or some element
fails the code check — id missing, falsy (including the integer 0) or not
a number, or order_num missing or not a number.  Every other body,
including the empty array, duplicate ids and non-integer numbers, is
passed in full to Order Sync (see `C8_counterexample` for the shapes the
original claim misjudges). -/
theorem C8_validation (es : List Json) (w : Json)
    (hnull : ∀ e ∈ es, e.isNull = false) (hw : w.isArr = false) :
    (ordersHandler (Json.arr es) =
        .badRequest (jstr "排序数据格式无效，每个项目必须包含id和order_num") ↔
      ∃ e ∈ es, orderItemBad e = true)
    ∧ ((∀ e ∈ es, orderItemBad e = false) →
      ordersHandler (Json.arr es) =
        .callSync (es.map fun it =>
          (itemField it (jstr "id"), itemField it (jstr "order_num"))))
    ∧ ordersHandler w = .badRequest (jstr "排序数据必须是数组") := by
  have hspec := ordersLoop_spec es es hnull
  refine ⟨⟨?_, fun he => hspec.1 he⟩, fun hall => hspec.2 hall, ?_⟩
  · intro heq
    by_contra hno
    push_neg at hno
    have hall : ∀ e ∈ es, orderItemBad e = false := by
      intro e he
      cases hb : orderItemBad e with
      | false => rfl
      | true => exact absurd hb (hno e he)
    have hcall := hspec.2 hall
    rw [show ordersHandler (Json.arr es) = ordersLoop es es from rfl, hcall] at heq
    exact OrdersOutcome.noConfusion heq
  · cases w <;> first | rfl | simp [Json.isArr] at hw

/-- Witness for C8: the empty array reaches Order Sync (no 400), and a
non-array body is rejected with the array message. -/
theorem C8_validation_witness :
    ordersHandler (Json.arr []) = .callSync []
    ∧ ordersHandler Json.null = .badRequest (jstr "排序数据必须是数组") :=
  ⟨(C8_validation [] Json.null (by simp) rfl).2.1 (by simp),
   (C8_validation [] Json.null (by simp) rfl).2.2⟩

/-- Counterexample to C8 as stated: the empty array (an empty sequence)
is not answered 400 but forwarded to Order Sync; a request with the same
id twice passes validation; an element with the integer id 0 is rejected
400 although it satisfies the claimed integer precondition; and a
non-integer order number 1.5 passes validation. -/
theorem C8_counterexample :
    ordersHandler (Json.arr []) = .callSync []
    ∧ ordersHandler (Json.arr [dupOrderItem, dupOrderItem]) = .callSync [(1, 0), (1, 0)]
    ∧ ordersHandler (Json.arr [zeroIdOrderItem]) =
        .badRequest (jstr "排序数据格式无效，每个项目必须包含id和order_num")
    ∧ ordersHandler (Json.arr [fracOrderItem]) = .callSync [(1, mkRat 3 2)] :=
  ⟨rfl, rfl, rfl, rfl⟩

end Navihive
